import Mathlib

/-
  Verification of the reconnecting WebSocket probe client
  (src/server/websocket_test_connection.py).

  The client is embedded as a trace semantics.  The environment is
  described by a script: a list of attempt outcomes, one per iteration of
  the outer `while True` loop.  Each outcome says how that iteration of
  the loop ends: the `websockets.connect(uri)` call raises, the
  `websocket.send(...)` call raises, or some messages are received by
  `websocket.recv()` and then a later `recv()` raises.  (The inner
  `while True: recv` loop has no other exit, so every finite attempt ends
  in an exception.)  `run` replays the Python control flow over the script
  and records every observable action as an event.
-/

namespace WSClient

/-- Exception classes that matter to the `except` clause at line 22 of the
source.  `websockets.exceptions.ConnectionClosed` is the common superclass
of both `ConnectionClosedOK` (clean, protocol-normal close) and
`ConnectionClosedError` (abnormal close), so both are represented and both
match the caught class.  `otherError` stands for every exception class
matched by none of `ConnectionClosed`, `ConnectionRefusedError`,
`socket.gaierror`. -/
inductive ErrKind where
  | connectionClosedOK
  | connectionClosedError
  | connectionRefused
  | gaierror
  | otherError
  deriving DecidableEq, Repr

/-- An exception instance: its class kind plus the text `str(e)` renders to. -/
structure Err where
  kind : ErrKind
  detail : String
  deriving DecidableEq, Repr

/-- Whether the exception is matched by the tuple
`(websockets.exceptions.ConnectionClosed, ConnectionRefusedError, socket.gaierror)`
in the `except` clause (line 22). -/
def recoverable (e : Err) : Bool :=
  match e.kind with
  | .connectionClosedOK => true
  | .connectionClosedError => true
  | .connectionRefused => true
  | .gaierror => true
  | .otherError => false

/-- The endpoint literal bound to `uri` at line 7 of the source. -/
def uri : String := "ws://painters.segerend.nl:80"

/-- The fixed greeting payload sent at line 15. -/
def greeting : String := "Hello, Server!"

/-- The argument of `time.sleep` at line 27, in time units (seconds). -/
def retryDelay : Nat := 5

/-- Fixed text fragments of the three print statements (lines 12, 20, 24). -/
def connectedMsg : String := "Connected to server"

/-- Label prefixed to every received message when printed (line 20). -/
def msgLabel : String := "Message from server: "

/-- Leading fragment of the diagnostic line printed at line 24. -/
def failLabel : String := "Connection failed: "

/-- Trailing fragment of the diagnostic line printed at line 24. -/
def retryTail : String := ". Retrying..."

/-- A line written to standard output, kept structured: which of the three
print statements produced it, with its variable parts. -/
inductive OutLine where
  | connected
  | message (payload : String)
  | connFailed (detail : String)
  deriving DecidableEq, Repr

/-- The exact text of an output line, following the f-strings of the
source: `"Connected to server"`, `f"Message from server: {response}"`,
`f"Connection failed: {e}. Retrying..."`. -/
def renderLine : OutLine → String
  | .connected => connectedMsg
  | .message p => msgLabel ++ p
  | .connFailed d => failLabel ++ d ++ retryTail

/-- One observable action of the client.  `connectCall` records the call
`websockets.connect(target)`; `handleOpened`/`handleClosed` record the
`async with` context acquiring and releasing the connection handle;
`sendCall`, `recvCall`, `sleepCall` record the corresponding calls;
`print` records one line written to standard output. -/
inductive Event where
  | connectCall (target : String)
  | handleOpened
  | handleClosed
  | print (line : OutLine)
  | sendCall (payload : String)
  | recvCall
  | sleepCall (seconds : Nat)
  deriving DecidableEq, Repr

/-- How one iteration of the outer loop ends, as dictated by the
environment: the connect call raises `e`; connect succeeds and the send
raises `e`; or connect and send succeed, the messages `msgs` are received
in order, and then the next recv raises `e`. -/
inductive AttemptOutcome where
  | connectFail (e : Err)
  | sendFail (e : Err)
  | recvFail (msgs : List String) (e : Err)
  deriving DecidableEq, Repr

/-- The exception that ends the attempt. -/
def attemptErr : AttemptOutcome → Err
  | .connectFail e => e
  | .sendFail e => e
  | .recvFail _ e => e

/-- Whether the `websockets.connect` call of the attempt succeeds. -/
def connectSucceeds : AttemptOutcome → Bool
  | .connectFail _ => false
  | .sendFail _ => true
  | .recvFail _ _ => true

/-- Events of the inner `while True` receive loop (lines 18-20): each
iteration is one `recv` call followed by one print; the final `recv` call
is the one that raises. -/
def recvLoop : List String → List Event
  | [] => [Event.recvCall]
  | m :: rest => Event.recvCall :: Event.print (OutLine.message m) :: recvLoop rest

/-- Events of one iteration of the outer loop up to (and excluding) the
`except` handler: the connect call; on success the handle opens, the
"Connected to server" print and the greeting send follow, then the receive
loop; the `async with` block closes the handle before the exception
escapes to the `except` clause. -/
def attemptEvents : AttemptOutcome → List Event
  | .connectFail _ => [Event.connectCall uri]
  | .sendFail _ =>
      [Event.connectCall uri, Event.handleOpened, Event.print OutLine.connected,
       Event.sendCall greeting, Event.handleClosed]
  | .recvFail msgs _ =>
      Event.connectCall uri :: Event.handleOpened :: Event.print OutLine.connected ::
        Event.sendCall greeting :: (recvLoop msgs ++ [Event.handleClosed])

/-- How the run of `connect()` stands after the script is consumed:
still inside the loop (`outOfScript`), ended by an uncaught exception
(`fatal`), or ended by a `return` (`returned`; the source has no return
path, and the semantics never produces this value). -/
inductive Result where
  | outOfScript
  | fatal (e : Err)
  | returned
  deriving DecidableEq, Repr

/-- Replay of `connect()` (lines 6-27) over a script.  A recoverable
exception reaches the `except` clause: the diagnostic is printed, the
loop-level `time.sleep(5)` runs, and the loop continues with the rest of
the script.  Any other exception propagates out of the function at once:
no print, no sleep, no further iteration. -/
def run : List AttemptOutcome → List Event × Result
  | [] => ([], Result.outOfScript)
  | a :: rest =>
    if recoverable (attemptErr a) then
      let tail := run rest
      (attemptEvents a ++
        Event.print (OutLine.connFailed (attemptErr a).detail) ::
        Event.sleepCall retryDelay :: tail.1,
       tail.2)
    else
      (attemptEvents a, Result.fatal (attemptErr a))

/-- Exit code of the process, from the module top level (line 30):
`asyncio.get_event_loop().run_until_complete(connect())` with nothing
after it.  While the loop is still running there is no exit code; an
exception escaping `connect()` is uncaught at top level, so the
interpreter exits non-zero (CPython uses 1); a normal return would end
the script with exit code 0. -/
def processExitCode : Result → Option Nat
  | .outOfScript => none
  | .fatal _ => some 1
  | .returned => some 0

/-- Event classifiers used by the statements below. -/
def isConnectCall : Event → Bool
  | .connectCall _ => true
  | _ => false

def isSleepCall : Event → Bool
  | .sleepCall _ => true
  | _ => false

def isSendCall : Event → Bool
  | .sendCall _ => true
  | _ => false

def isRecvCall : Event → Bool
  | .recvCall => true
  | _ => false

def isOpened : Event → Bool
  | .handleOpened => true
  | _ => false

def isClosed : Event → Bool
  | .handleClosed => true
  | _ => false

def isFailPrint : Event → Bool
  | .print (OutLine.connFailed _) => true
  | _ => false

/-- The lines printed along a trace, in order. -/
def printedLines (t : List Event) : List OutLine :=
  t.filterMap fun e =>
    match e with
    | .print l => some l
    | _ => none

/-- The subtrace of connect calls and sleeps, in order. -/
def connSleepTrace (t : List Event) : List Event :=
  t.filter fun e => isConnectCall e || isSleepCall e

/-- Number of handle-open events in a trace. -/
def openCount (t : List Event) : Nat := List.countP isOpened t

/-- Number of handle-close events in a trace. -/
def closeCount (t : List Event) : Nat := List.countP isClosed t

/-- Single-handle safety of a trace: in every prefix the closes never
exceed the opens, the opens never lead the closes by more than one (at
most one connection handle exists at any point), and whenever the next
event is a connect call or a sleep, every handle opened so far has
already been closed. -/
def handleInv (t : List Event) : Prop :=
  ∀ n : Nat,
    closeCount (List.take n t) ≤ openCount (List.take n t) ∧
    openCount (List.take n t) ≤ closeCount (List.take n t) + 1 ∧
    ∀ e, t[n]? = some e → (isConnectCall e || isSleepCall e) = true →
      openCount (List.take n t) = closeCount (List.take n t)

/-- Every event of the receive loop is a recv call or a message print. -/
lemma recvLoop_mem (msgs : List String) :
    ∀ e ∈ recvLoop msgs,
      e = Event.recvCall ∨ ∃ m, e = Event.print (OutLine.message m) := by
  induction msgs with
  | nil =>
    intro e he
    simp [recvLoop] at he
    exact Or.inl he
  | cons m rest ih =>
    intro e he
    simp only [recvLoop, List.mem_cons] at he
    rcases he with h | h | h
    · exact Or.inl h
    · exact Or.inr ⟨m, h⟩
    · exact ih e h

/-- A predicate false on recv calls and message prints counts zero in the
receive loop. -/
lemma countP_recvLoop (p : Event → Bool) (h1 : p Event.recvCall = false)
    (h2 : ∀ m, p (Event.print (OutLine.message m)) = false) (msgs : List String) :
    List.countP p (recvLoop msgs) = 0 := by
  refine List.countP_eq_zero.mpr ?_
  intro e he
  rcases recvLoop_mem msgs e he with h | ⟨m, h⟩
  · simp [h, h1]
  · simp [h, h2]

/-- A predicate false on recv calls and message prints filters the receive
loop to nothing. -/
lemma filter_recvLoop (p : Event → Bool) (h1 : p Event.recvCall = false)
    (h2 : ∀ m, p (Event.print (OutLine.message m)) = false) (msgs : List String) :
    List.filter p (recvLoop msgs) = [] := by
  refine List.filter_eq_nil_iff.mpr ?_
  intro e he
  rcases recvLoop_mem msgs e he with h | ⟨m, h⟩
  · simp [h, h1]
  · simp [h, h2]

/-- The receive loop starts with a recv call. -/
lemma recvLoop_head (msgs : List String) :
    ∃ t, recvLoop msgs = Event.recvCall :: t := by
  cases msgs with
  | nil => exact ⟨[], rfl⟩
  | cons m rest => exact ⟨_, rfl⟩

/-- Each attempt makes exactly one connect call. -/
lemma countP_connect_attempt (a : AttemptOutcome) :
    List.countP isConnectCall (attemptEvents a) = 1 := by
  cases a with
  | connectFail e => simp [attemptEvents, isConnectCall]
  | sendFail e => simp [attemptEvents, isConnectCall]
  | recvFail msgs e =>
    simp [attemptEvents, isConnectCall,
      countP_recvLoop isConnectCall rfl (fun _ => rfl) msgs]

/-- An attempt performs no sleep. -/
lemma countP_sleep_attempt (a : AttemptOutcome) :
    List.countP isSleepCall (attemptEvents a) = 0 := by
  cases a with
  | connectFail e => simp [attemptEvents, isSleepCall]
  | sendFail e => simp [attemptEvents, isSleepCall]
  | recvFail msgs e =>
    simp [attemptEvents, isSleepCall,
      countP_recvLoop isSleepCall rfl (fun _ => rfl) msgs]

/-- An attempt prints no "Connection failed" diagnostic; only the `except`
handler does. -/
lemma countP_failPrint_attempt (a : AttemptOutcome) :
    List.countP isFailPrint (attemptEvents a) = 0 := by
  cases a with
  | connectFail e => simp [attemptEvents, isFailPrint]
  | sendFail e => simp [attemptEvents, isFailPrint]
  | recvFail msgs e =>
    simp [attemptEvents, isFailPrint,
      countP_recvLoop isFailPrint rfl (fun _ => rfl) msgs]

/-- The connect-and-sleep subtrace distributes over concatenation. -/
lemma connSleepTrace_append (xs ys : List Event) :
    connSleepTrace (xs ++ ys) = connSleepTrace xs ++ connSleepTrace ys := by
  simp only [connSleepTrace, List.filter_append]

/-- Restricted to connect calls and sleeps, an attempt is the single
connect call on the fixed endpoint. -/
lemma connSleepTrace_attempt (a : AttemptOutcome) :
    connSleepTrace (attemptEvents a) = [Event.connectCall uri] := by
  cases a with
  | connectFail e => rfl
  | sendFail e => rfl
  | recvFail msgs e =>
    have h1 : connSleepTrace (attemptEvents (AttemptOutcome.recvFail msgs e)) =
        Event.connectCall uri ::
          connSleepTrace (recvLoop msgs ++ [Event.handleClosed]) := rfl
    have h2 : connSleepTrace (recvLoop msgs) =
        List.filter (fun e => isConnectCall e || isSleepCall e) (recvLoop msgs) := rfl
    rw [h1, connSleepTrace_append, h2,
      filter_recvLoop (fun e => isConnectCall e || isSleepCall e) rfl
        (fun _ => rfl) msgs]
    rfl

/-- Every attempt starts with the connect call on the fixed endpoint. -/
lemma attemptEvents_head (a : AttemptOutcome) :
    ∃ t, attemptEvents a = Event.connectCall uri :: t := by
  cases a with
  | connectFail e => exact ⟨_, rfl⟩
  | sendFail e => exact ⟨_, rfl⟩
  | recvFail msgs e => exact ⟨_, rfl⟩

/-- The only connect-call target appearing in an attempt is the fixed
endpoint literal. -/
lemma connectCall_mem_attempt (a : AttemptOutcome) (u : String)
    (h : Event.connectCall u ∈ attemptEvents a) : u = uri := by
  cases a with
  | connectFail e => simpa [attemptEvents] using h
  | sendFail e => simpa [attemptEvents] using h
  | recvFail msgs e =>
    simp only [attemptEvents, List.mem_cons, List.mem_append,
      List.mem_singleton] at h
    rcases h with h | h | h | h | h | h
    · simpa using h
    · simp at h
    · simp at h
    · simp at h
    · rcases recvLoop_mem msgs _ h with h2 | ⟨m, h2⟩ <;> simp at h2
    · simp at h

/-- Consuming an all-recoverable script and then more of the script is the
same as consuming the parts one after the other. -/
lemma run_append_recoverable (xs ys : List AttemptOutcome)
    (h : ∀ x ∈ xs, recoverable (attemptErr x) = true) :
    run (xs ++ ys) = ((run xs).1 ++ (run ys).1, (run ys).2) := by
  induction xs with
  | nil => simp [run]
  | cons a rest ih =>
    have ha : recoverable (attemptErr a) = true := h a (by simp)
    have hr : ∀ x ∈ rest, recoverable (attemptErr x) = true :=
      fun x hx => h x (by simp [hx])
    simp [run, ha, ih hr]

/-- An all-recoverable script leaves the loop still running. -/
lemma run_recoverable_result (s : List AttemptOutcome)
    (h : ∀ x ∈ s, recoverable (attemptErr x) = true) :
    (run s).2 = Result.outOfScript := by
  induction s with
  | nil => rfl
  | cons a rest ih =>
    have ha : recoverable (attemptErr a) = true := h a (by simp)
    have hr : ∀ x ∈ rest, recoverable (attemptErr x) = true :=
      fun x hx => h x (by simp [hx])
    simp [run, ha, ih hr]

/-- The run ends in one of two ways only: script exhausted with the loop
still running, or a non-recoverable exception propagating. -/
lemma run_result_cases (s : List AttemptOutcome) :
    (run s).2 = Result.outOfScript ∨
      ∃ e, recoverable e = false ∧ (run s).2 = Result.fatal e := by
  induction s with
  | nil => exact Or.inl rfl
  | cons a rest ih =>
    by_cases ha : recoverable (attemptErr a) = true
    · simpa [run, ha] using ih
    · refine Or.inr ⟨attemptErr a, ?_, ?_⟩
      · simpa using ha
      · simp [run, ha]

/-- On an all-recoverable script the connect-and-sleep subtrace is exactly
one connect call followed by one fixed-length sleep, per attempt. -/
lemma connSleepTrace_run_recoverable (s : List AttemptOutcome)
    (h : ∀ x ∈ s, recoverable (attemptErr x) = true) :
    connSleepTrace (run s).1 =
      List.flatten (List.replicate s.length
        [Event.connectCall uri, Event.sleepCall retryDelay]) := by
  induction s with
  | nil => rfl
  | cons a rest ih =>
    have ha : recoverable (attemptErr a) = true := h a (by simp)
    have hr : ∀ x ∈ rest, recoverable (attemptErr x) = true :=
      fun x hx => h x (by simp [hx])
    have h1 : (run (a :: rest)).1 =
        attemptEvents a ++
          Event.print (OutLine.connFailed (attemptErr a).detail) ::
          Event.sleepCall retryDelay :: (run rest).1 := by
      simp [run, ha]
    have h2 : connSleepTrace
        (Event.print (OutLine.connFailed (attemptErr a).detail) ::
          Event.sleepCall retryDelay :: (run rest).1) =
        Event.sleepCall retryDelay :: connSleepTrace (run rest).1 := rfl
    rw [h1, connSleepTrace_append, connSleepTrace_attempt a, h2, ih hr]
    simp [List.replicate_succ]

/-- Every run makes one connect call per scripted attempt that it reaches
before a fatal error, and its connect calls all target the fixed endpoint;
here: the count over an all-recoverable script. -/
lemma countP_connect_run_recoverable (s : List AttemptOutcome)
    (h : ∀ x ∈ s, recoverable (attemptErr x) = true) :
    List.countP isConnectCall (run s).1 = s.length := by
  induction s with
  | nil => rfl
  | cons a rest ih =>
    have ha : recoverable (attemptErr a) = true := h a (by simp)
    have hr : ∀ x ∈ rest, recoverable (attemptErr x) = true :=
      fun x hx => h x (by simp [hx])
    simp [run, ha, List.countP_append, countP_connect_attempt a,
      List.countP_cons, isConnectCall, ih hr, Nat.add_comm]

/-- A one-attempt script makes exactly one connect call whatever the
outcome. -/
lemma countP_connect_run_single (a : AttemptOutcome) :
    List.countP isConnectCall (run [a]).1 = 1 := by
  by_cases ha : recoverable (attemptErr a) = true
  · simp [run, ha, List.countP_append, countP_connect_attempt a,
      List.countP_cons, isConnectCall]
  · simp [run, ha, countP_connect_attempt a]

/-- A nonempty script begins with the connect call on the fixed endpoint. -/
lemma run_cons_head (b : AttemptOutcome) (more : List AttemptOutcome) :
    ∃ t, (run (b :: more)).1 = Event.connectCall uri :: t := by
  obtain ⟨t0, ht0⟩ := attemptEvents_head b
  by_cases hb : recoverable (attemptErr b) = true
  · refine ⟨t0 ++ Event.print (OutLine.connFailed (attemptErr b).detail) ::
      Event.sleepCall retryDelay :: (run more).1, ?_⟩
    simp [run, hb, ht0]
  · exact ⟨t0, by simp [run, hb, ht0]⟩

/-- Every connect call in any run targets the fixed endpoint literal. -/
lemma connectCall_mem_run (s : List AttemptOutcome) (u : String)
    (h : Event.connectCall u ∈ (run s).1) : u = uri := by
  induction s with
  | nil => simp [run] at h
  | cons a rest ih =>
    by_cases ha : recoverable (attemptErr a) = true
    · simp [run, ha] at h
      rcases h with h | h
      · exact connectCall_mem_attempt a u h
      · exact ih h
    · simp [run, ha] at h
      exact connectCall_mem_attempt a u h

lemma openCount_append (xs ys : List Event) :
    openCount (xs ++ ys) = openCount xs + openCount ys := by
  simp [openCount, List.countP_append]

lemma closeCount_append (xs ys : List Event) :
    closeCount (xs ++ ys) = closeCount xs + closeCount ys := by
  simp [closeCount, List.countP_append]

/-- Single-handle safety composes across concatenation when the first
part opens as many handles as it closes. -/
lemma handleInv_append (xs ys : List Event) (hx : handleInv xs)
    (hbal : openCount xs = closeCount xs) (hy : handleInv ys) :
    handleInv (xs ++ ys) := by
  intro n
  by_cases hn : n < xs.length
  · have htake : List.take n (xs ++ ys) = List.take n xs := by
      rw [List.take_append_eq_append_take,
        Nat.sub_eq_zero_of_le (Nat.le_of_lt hn)]
      simp
    have hget : (xs ++ ys)[n]? = xs[n]? := List.getElem?_append_left hn
    rw [htake, hget]
    exact hx n
  · have hn2 : xs.length ≤ n := Nat.le_of_not_lt hn
    have htake : List.take n (xs ++ ys) =
        xs ++ List.take (n - xs.length) ys := by
      rw [List.take_append_eq_append_take, List.take_of_length_le hn2]
    have hget : (xs ++ ys)[n]? = ys[n - xs.length]? :=
      List.getElem?_append_right hn2
    rw [htake, hget]
    obtain ⟨hy1, hy2, hy3⟩ := hy (n - xs.length)
    refine ⟨?_, ?_, ?_⟩
    · rw [openCount_append, closeCount_append, hbal]
      omega
    · rw [openCount_append, closeCount_append, hbal]
      omega
    · intro e hge hkind
      rw [openCount_append, closeCount_append, hbal, hy3 e hge hkind]

/-- Inside the receive-loop-plus-close tail of a successful attempt no
handle opens and no connect call or sleep occurs. -/
lemma recvTail_mem (msgs : List String) :
    ∀ e ∈ recvLoop msgs ++ [Event.handleClosed],
      isOpened e = false ∧ isConnectCall e = false ∧ isSleepCall e = false := by
  intro e he
  rcases List.mem_append.mp he with h | h
  · rcases recvLoop_mem msgs e h with h2 | ⟨m, h2⟩ <;> subst h2 <;>
      exact ⟨rfl, rfl, rfl⟩
  · simp only [List.mem_singleton] at h
    subst h
    exact ⟨rfl, rfl, rfl⟩

lemma openCount_take_recvTail (msgs : List String) (m : Nat) :
    openCount (List.take m (recvLoop msgs ++ [Event.handleClosed])) = 0 := by
  refine List.countP_eq_zero.mpr ?_
  intro e he
  have h := (recvTail_mem msgs e (List.take_subset m _ he)).1
  simp [h]

lemma closeCount_take_recvTail (msgs : List String) (m : Nat) :
    closeCount (List.take m (recvLoop msgs ++ [Event.handleClosed])) ≤ 1 := by
  have h1 : closeCount (List.take m (recvLoop msgs ++ [Event.handleClosed])) ≤
      closeCount (recvLoop msgs ++ [Event.handleClosed]) :=
    List.Sublist.countP_le _ (List.take_sublist m _)
  have h2 : closeCount (recvLoop msgs ++ [Event.handleClosed]) = 1 := by
    simp [closeCount, List.countP_append,
      countP_recvLoop isClosed rfl (fun _ => rfl) msgs, isClosed]
  omega

/-- Each attempt closes every handle it opens. -/
lemma openCount_attempt_eq_closeCount (a : AttemptOutcome) :
    openCount (attemptEvents a) = closeCount (attemptEvents a) := by
  cases a with
  | connectFail e => rfl
  | sendFail e => rfl
  | recvFail msgs e =>
    simp [openCount, closeCount, attemptEvents, List.countP_cons,
      List.countP_append, isOpened, isClosed,
      countP_recvLoop isOpened rfl (fun _ => rfl) msgs,
      countP_recvLoop isClosed rfl (fun _ => rfl) msgs]

/-- Adding the fixed head of a successful attempt to a trace adds one
open and no close. -/
lemma openCount_successHead (rest : List Event) :
    openCount (Event.connectCall uri :: Event.handleOpened ::
      Event.print OutLine.connected :: Event.sendCall greeting :: rest) =
    openCount rest + 1 := by
  simp [openCount, List.countP_cons, isOpened]

lemma closeCount_successHead (rest : List Event) :
    closeCount (Event.connectCall uri :: Event.handleOpened ::
      Event.print OutLine.connected :: Event.sendCall greeting :: rest) =
    closeCount rest := by
  simp [closeCount, List.countP_cons, isClosed]

/-- Single-handle safety of one attempt. -/
lemma handleInv_attempt (a : AttemptOutcome) : handleInv (attemptEvents a) := by
  cases a with
  | connectFail e =>
    intro n
    rcases n with _ | m
    · exact ⟨Nat.le_refl _, Nat.zero_le _, fun _ _ _ => rfl⟩
    · have htake : List.take (m+1) (attemptEvents (AttemptOutcome.connectFail e)) =
          attemptEvents (AttemptOutcome.connectFail e) :=
        List.take_of_length_le (by simp [attemptEvents])
      rw [htake]
      refine ⟨Nat.le_refl _, Nat.zero_le _, ?_⟩
      intro e2 he2 hk
      simp [attemptEvents] at he2
  | sendFail e =>
    intro n
    rcases n with _ | _ | _ | _ | _ | m
    · exact ⟨Nat.le_refl _, Nat.zero_le _, fun _ _ _ => rfl⟩
    · refine ⟨Nat.le_refl _, Nat.zero_le _, ?_⟩
      intro e2 he2 hk
      simp only [attemptEvents, List.getElem?_cons_succ,
        List.getElem?_cons_zero, Option.some.injEq] at he2
      subst he2
      simp [isConnectCall, isSleepCall] at hk
    · refine ⟨Nat.zero_le _, Nat.le_refl _, ?_⟩
      intro e2 he2 hk
      simp only [attemptEvents, List.getElem?_cons_succ,
        List.getElem?_cons_zero, Option.some.injEq] at he2
      subst he2
      simp [isConnectCall, isSleepCall] at hk
    · refine ⟨Nat.zero_le _, Nat.le_refl _, ?_⟩
      intro e2 he2 hk
      simp only [attemptEvents, List.getElem?_cons_succ,
        List.getElem?_cons_zero, Option.some.injEq] at he2
      subst he2
      simp [isConnectCall, isSleepCall] at hk
    · refine ⟨Nat.zero_le _, Nat.le_refl _, ?_⟩
      intro e2 he2 hk
      simp only [attemptEvents, List.getElem?_cons_succ,
        List.getElem?_cons_zero, Option.some.injEq] at he2
      subst he2
      simp [isConnectCall, isSleepCall] at hk
    · have htake : List.take (m+5) (attemptEvents (AttemptOutcome.sendFail e)) =
          attemptEvents (AttemptOutcome.sendFail e) :=
        List.take_of_length_le (by simp [attemptEvents])
      rw [htake]
      refine ⟨Nat.le_refl _, Nat.le_succ _, ?_⟩
      intro e2 he2 hk
      simp [attemptEvents] at he2
  | recvFail msgs e =>
    have hsplit : attemptEvents (AttemptOutcome.recvFail msgs e) =
        [Event.connectCall uri, Event.handleOpened, Event.print OutLine.connected,
         Event.sendCall greeting] ++ (recvLoop msgs ++ [Event.handleClosed]) := rfl
    intro n
    rcases n with _ | _ | _ | _ | m
    · exact ⟨Nat.le_refl _, Nat.zero_le _, fun _ _ _ => rfl⟩
    · refine ⟨Nat.le_refl _, Nat.zero_le _, ?_⟩
      intro e2 he2 hk
      simp only [attemptEvents, List.getElem?_cons_succ,
        List.getElem?_cons_zero, Option.some.injEq] at he2
      subst he2
      simp [isConnectCall, isSleepCall] at hk
    · refine ⟨Nat.zero_le _, Nat.le_refl _, ?_⟩
      intro e2 he2 hk
      simp only [attemptEvents, List.getElem?_cons_succ,
        List.getElem?_cons_zero, Option.some.injEq] at he2
      subst he2
      simp [isConnectCall, isSleepCall] at hk
    · refine ⟨Nat.zero_le _, Nat.le_refl _, ?_⟩
      intro e2 he2 hk
      simp only [attemptEvents, List.getElem?_cons_succ,
        List.getElem?_cons_zero, Option.some.injEq] at he2
      subst he2
      simp [isConnectCall, isSleepCall] at hk
    · have htake : List.take (m+4) (attemptEvents (AttemptOutcome.recvFail msgs e)) =
          Event.connectCall uri :: Event.handleOpened ::
            Event.print OutLine.connected :: Event.sendCall greeting ::
            List.take m (recvLoop msgs ++ [Event.handleClosed]) := rfl
      have hopen : openCount (List.take (m+4)
          (attemptEvents (AttemptOutcome.recvFail msgs e))) = 1 := by
        rw [htake, openCount_successHead, openCount_take_recvTail msgs m]
      have hclose : closeCount (List.take (m+4)
          (attemptEvents (AttemptOutcome.recvFail msgs e))) =
          closeCount (List.take m (recvLoop msgs ++ [Event.handleClosed])) := by
        rw [htake, closeCount_successHead]
      refine ⟨?_, ?_, ?_⟩
      · rw [hopen, hclose]
        exact closeCount_take_recvTail msgs m
      · rw [hopen]
        exact Nat.le_add_left 1 _
      · intro e2 he2 hk
        rw [hsplit, List.getElem?_append_right (by simp)] at he2
        have he3 : (recvLoop msgs ++ [Event.handleClosed])[m]? = some e2 := by
          simpa using he2
        obtain ⟨_, hc, hs⟩ := recvTail_mem msgs e2 (List.getElem?_mem he3)
        rw [hc, hs] at hk
        simp at hk

/-- Single-handle safety of the backoff segment after a recoverable
failure: it opens nothing, and when the sleep is the next event all
handles are closed (trivially, none is open). -/
lemma handleInv_backoff (d : String) :
    handleInv [Event.print (OutLine.connFailed d), Event.sleepCall retryDelay] := by
  intro n
  rcases n with _ | _ | m
  · exact ⟨Nat.le_refl _, Nat.zero_le _, fun _ _ _ => rfl⟩
  · exact ⟨Nat.le_refl _, Nat.zero_le _, fun _ _ _ => rfl⟩
  · have htake : List.take (m+2)
        [Event.print (OutLine.connFailed d), Event.sleepCall retryDelay] =
        [Event.print (OutLine.connFailed d), Event.sleepCall retryDelay] :=
      List.take_of_length_le (by simp)
    rw [htake]
    refine ⟨Nat.le_refl _, Nat.zero_le _, ?_⟩
    intro e2 he2 hk
    simp at he2

/-- Single-handle safety of the whole run, whatever the script. -/
lemma handleInv_run (s : List AttemptOutcome) : handleInv (run s).1 := by
  induction s with
  | nil =>
    intro n
    rw [show (run ([] : List AttemptOutcome)).1 = [] from rfl, List.take_nil]
    refine ⟨Nat.le_refl _, Nat.zero_le _, ?_⟩
    intro e he hk
    simp at he
  | cons a rest ih =>
    by_cases ha : recoverable (attemptErr a) = true
    · have h1 : (run (a :: rest)).1 =
          attemptEvents a ++
            ([Event.print (OutLine.connFailed (attemptErr a).detail),
              Event.sleepCall retryDelay] ++ (run rest).1) := by
        simp [run, ha]
      rw [h1]
      exact handleInv_append _ _ (handleInv_attempt a)
        (openCount_attempt_eq_closeCount a)
        (handleInv_append _ _ (handleInv_backoff _) rfl ih)
    · have h1 : (run (a :: rest)).1 = attemptEvents a := by
        simp [run, ha]
      rw [h1]
      exact handleInv_attempt a

/-- The receive loop prints exactly one message line per received
message, in order. -/
lemma printedLines_recvLoop (msgs : List String) :
    printedLines (recvLoop msgs) = msgs.map OutLine.message := by
  induction msgs with
  | nil => rfl
  | cons m rest ih =>
    have h : printedLines (recvLoop (m :: rest)) =
        OutLine.message m :: printedLines (recvLoop rest) := rfl
    rw [h, ih]
    rfl

/-- C1: after N consecutive recoverable connection failures with the
(N+1)-th attempt next, the client has made exactly N+1 connect calls;
restricted to connect calls and sleeps, the N failures produce exactly
one fixed-length pause between each consecutive pair of attempts; and the
client has not terminated on its own. -/
theorem retry_invariant (fails : List AttemptOutcome) (next : AttemptOutcome)
    (h : ∀ x ∈ fails, recoverable (attemptErr x) = true) :
    List.countP isConnectCall (run (fails ++ [next])).1 = fails.length + 1 ∧
    connSleepTrace (run fails).1 =
      List.flatten (List.replicate fails.length
        [Event.connectCall uri, Event.sleepCall retryDelay]) ∧
    (run fails).2 = Result.outOfScript := by
  refine ⟨?_, connSleepTrace_run_recoverable fails h, run_recoverable_result fails h⟩
  rw [run_append_recoverable fails [next] h]
  show List.countP isConnectCall ((run fails).1 ++ (run [next]).1) = fails.length + 1
  rw [List.countP_append, countP_connect_run_recoverable fails h,
    countP_connect_run_single next]

/-- Witness for the retry invariant: two recoverable failures followed by
a third attempt give exactly three connect calls. -/
theorem retry_invariant_witness :
    (∀ x ∈ [AttemptOutcome.connectFail ⟨ErrKind.connectionRefused, "refused"⟩,
            AttemptOutcome.recvFail ["a"] ⟨ErrKind.connectionClosedError, "eof"⟩],
        recoverable (attemptErr x) = true) ∧
    List.countP isConnectCall
      (run ([AttemptOutcome.connectFail ⟨ErrKind.connectionRefused, "refused"⟩,
             AttemptOutcome.recvFail ["a"] ⟨ErrKind.connectionClosedError, "eof"⟩] ++
        [AttemptOutcome.connectFail ⟨ErrKind.gaierror, "dns"⟩])).1 = 2 + 1 :=
  ⟨by decide,
   (retry_invariant
      [AttemptOutcome.connectFail ⟨ErrKind.connectionRefused, "refused"⟩,
       AttemptOutcome.recvFail ["a"] ⟨ErrKind.connectionClosedError, "eof"⟩]
      (AttemptOutcome.connectFail ⟨ErrKind.gaierror, "dns"⟩) (by decide)).1⟩

/-- C2: over one successful connection delivering M1..Mk in order, the
client prints (after the one "Connected to server" line of that attempt)
exactly the lines "Message from server: M1" .. "Message from server: Mk",
in that order, one line per message, each carrying the fixed label. -/
theorem message_ordering (msgs : List String) (e : Err) :
    List.map renderLine
      (printedLines (attemptEvents (AttemptOutcome.recvFail msgs e))) =
      connectedMsg :: List.map (fun m => msgLabel ++ m) msgs := by
  have h : printedLines (attemptEvents (AttemptOutcome.recvFail msgs e)) =
      OutLine.connected :: printedLines (recvLoop msgs ++ [Event.handleClosed]) := rfl
  have h2 : printedLines (recvLoop msgs ++ [Event.handleClosed]) =
      printedLines (recvLoop msgs) := by
    simp [printedLines, List.filterMap_append]
  rw [h, h2, printedLines_recvLoop]
  simp [renderLine, Function.comp]

/-- C3: a successful connect sends exactly one greeting, with the exact
payload "Hello, Server!", before the first recv call of the attempt; an
attempt whose connect fails sends nothing. -/
theorem single_greeting (a : AttemptOutcome) :
    (connectSucceeds a = true →
      List.filter isSendCall (attemptEvents a) = [Event.sendCall greeting] ∧
      List.filter isSendCall
        (List.takeWhile (fun e => ! isRecvCall e) (attemptEvents a)) =
        [Event.sendCall greeting]) ∧
    (connectSucceeds a = false →
      List.filter isSendCall (attemptEvents a) = []) := by
  cases a with
  | connectFail e =>
    exact ⟨fun h => by simp [connectSucceeds] at h, fun _ => rfl⟩
  | sendFail e =>
    exact ⟨fun _ => ⟨rfl, rfl⟩, fun h => by simp [connectSucceeds] at h⟩
  | recvFail msgs e =>
    refine ⟨fun _ => ⟨?_, ?_⟩, fun h => by simp [connectSucceeds] at h⟩
    · have h1 : List.filter isSendCall
          (attemptEvents (AttemptOutcome.recvFail msgs e)) =
          Event.sendCall greeting ::
            List.filter isSendCall (recvLoop msgs ++ [Event.handleClosed]) := rfl
      rw [h1, List.filter_append,
        filter_recvLoop isSendCall rfl (fun _ => rfl) msgs]
      rfl
    · obtain ⟨t, ht⟩ := recvLoop_head msgs
      have h2 : attemptEvents (AttemptOutcome.recvFail msgs e) =
          Event.connectCall uri :: Event.handleOpened ::
            Event.print OutLine.connected :: Event.sendCall greeting ::
            (recvLoop msgs ++ [Event.handleClosed]) := rfl
      rw [h2, ht]
      rfl

/-- Witness for the single greeting: a successful attempt with one
message, and a failed connect, at concrete inputs. -/
theorem single_greeting_witness :
    (List.filter isSendCall
        (attemptEvents (AttemptOutcome.recvFail ["ping"]
          ⟨ErrKind.connectionClosedOK, "closed"⟩)) = [Event.sendCall greeting] ∧
      List.filter isSendCall
        (List.takeWhile (fun e => ! isRecvCall e)
          (attemptEvents (AttemptOutcome.recvFail ["ping"]
            ⟨ErrKind.connectionClosedOK, "closed"⟩))) =
        [Event.sendCall greeting]) ∧
    List.filter isSendCall
      (attemptEvents (AttemptOutcome.connectFail
        ⟨ErrKind.connectionRefused, "refused"⟩)) = [] :=
  ⟨(single_greeting (AttemptOutcome.recvFail ["ping"]
      ⟨ErrKind.connectionClosedOK, "closed"⟩)).1 rfl,
   (single_greeting (AttemptOutcome.connectFail
      ⟨ErrKind.connectionRefused, "refused"⟩)).2 rfl⟩

/-- C4: a non-recoverable error is not caught: the run stops at that
attempt with the error propagating, the attempt itself printed no
"Connection failed" diagnostic and slept nowhere, the scripted attempts
after it are never reached, and exactly pre.length + 1 connect calls were
made in total. -/
theorem fatal_isolation (pre post : List AttemptOutcome) (a : AttemptOutcome)
    (hpre : ∀ x ∈ pre, recoverable (attemptErr x) = true)
    (ha : recoverable (attemptErr a) = false) :
    (run (pre ++ a :: post)).1 = (run pre).1 ++ attemptEvents a ∧
    (run (pre ++ a :: post)).2 = Result.fatal (attemptErr a) ∧
    List.countP isFailPrint (attemptEvents a) = 0 ∧
    List.countP isSleepCall (attemptEvents a) = 0 ∧
    List.countP isConnectCall (run (pre ++ a :: post)).1 = pre.length + 1 := by
  have hsingle : run (a :: post) = (attemptEvents a, Result.fatal (attemptErr a)) := by
    simp [run, ha]
  have happ := run_append_recoverable pre (a :: post) hpre
  rw [hsingle] at happ
  refine ⟨by rw [happ], by rw [happ], countP_failPrint_attempt a,
    countP_sleep_attempt a, ?_⟩
  rw [happ]
  show List.countP isConnectCall ((run pre).1 ++ attemptEvents a) = pre.length + 1
  rw [List.countP_append, countP_connect_run_recoverable pre hpre,
    countP_connect_attempt a]

/-- Witness for fatal isolation: one recoverable failure, then a fatal
send error; the scripted third attempt is never reached. -/
theorem fatal_isolation_witness :
    (∀ x ∈ [AttemptOutcome.connectFail ⟨ErrKind.connectionRefused, "refused"⟩],
        recoverable (attemptErr x) = true) ∧
    recoverable (attemptErr (AttemptOutcome.sendFail ⟨ErrKind.otherError, "boom"⟩)) =
      false ∧
    (run ([AttemptOutcome.connectFail ⟨ErrKind.connectionRefused, "refused"⟩] ++
        AttemptOutcome.sendFail ⟨ErrKind.otherError, "boom"⟩ ::
        [AttemptOutcome.connectFail ⟨ErrKind.connectionRefused, "later"⟩])).2 =
      Result.fatal ⟨ErrKind.otherError, "boom"⟩ ∧
    List.countP isConnectCall
      (run ([AttemptOutcome.connectFail ⟨ErrKind.connectionRefused, "refused"⟩] ++
        AttemptOutcome.sendFail ⟨ErrKind.otherError, "boom"⟩ ::
        [AttemptOutcome.connectFail ⟨ErrKind.connectionRefused, "later"⟩])).1 =
      1 + 1 :=
  ⟨by decide, by decide,
   (fatal_isolation [AttemptOutcome.connectFail ⟨ErrKind.connectionRefused, "refused"⟩]
      [AttemptOutcome.connectFail ⟨ErrKind.connectionRefused, "later"⟩]
      (AttemptOutcome.sendFail ⟨ErrKind.otherError, "boom"⟩)
      (by decide) (by decide)).2.1,
   (fatal_isolation [AttemptOutcome.connectFail ⟨ErrKind.connectionRefused, "refused"⟩]
      [AttemptOutcome.connectFail ⟨ErrKind.connectionRefused, "later"⟩]
      (AttemptOutcome.sendFail ⟨ErrKind.otherError, "boom"⟩)
      (by decide) (by decide)).2.2.2.2⟩

/-- C5: on a recoverable failure (during connect, send or recv alike)
the run continues with exactly one "Connection failed: <detail>.
Retrying..." line (the attempt itself printed none), then the
fixed-length sleep as the very next event, then the next attempt, which
begins with a fresh connect call. -/
theorem backoff_behavior (a : AttemptOutcome) (rest : List AttemptOutcome)
    (h : recoverable (attemptErr a) = true) :
    (run (a :: rest)).1 =
      attemptEvents a ++
        Event.print (OutLine.connFailed (attemptErr a).detail) ::
        Event.sleepCall retryDelay :: (run rest).1 ∧
    List.countP isFailPrint (attemptEvents a) = 0 ∧
    renderLine (OutLine.connFailed (attemptErr a).detail) =
      failLabel ++ (attemptErr a).detail ++ retryTail ∧
    (∀ b more, rest = b :: more →
      ∃ t, (run rest).1 = Event.connectCall uri :: t) := by
  refine ⟨by simp [run, h], countP_failPrint_attempt a, rfl, ?_⟩
  intro b more hbm
  subst hbm
  exact run_cons_head b more

/-- Witness for backoff: a refused connect prints the diagnostic, sleeps,
and the next scripted attempt follows. -/
theorem backoff_behavior_witness :
    recoverable (attemptErr (AttemptOutcome.connectFail
      ⟨ErrKind.connectionRefused, "nope"⟩)) = true ∧
    (run [AttemptOutcome.connectFail ⟨ErrKind.connectionRefused, "nope"⟩,
          AttemptOutcome.connectFail ⟨ErrKind.gaierror, "dns"⟩]).1 =
      attemptEvents (AttemptOutcome.connectFail ⟨ErrKind.connectionRefused, "nope"⟩) ++
        Event.print (OutLine.connFailed "nope") ::
        Event.sleepCall retryDelay ::
        (run [AttemptOutcome.connectFail ⟨ErrKind.gaierror, "dns"⟩]).1 :=
  ⟨by decide,
   (backoff_behavior (AttemptOutcome.connectFail ⟨ErrKind.connectionRefused, "nope"⟩)
      [AttemptOutcome.connectFail ⟨ErrKind.gaierror, "dns"⟩] (by decide)).1⟩

/-- C6: every connect call of every run targets the one fixed endpoint
literal, whose scheme is ws, host painters.segerend.nl and port 80; the
semantics takes no other input that could influence the target. -/
theorem fixed_endpoint (script : List AttemptOutcome) (u : String)
    (h : Event.connectCall u ∈ (run script).1) :
    u = uri ∧
    uri = "ws" ++ "://" ++ "painters.segerend.nl" ++ ":" ++ "80" :=
  ⟨connectCall_mem_run script u h, rfl⟩

/-- Witness for the fixed endpoint: the connect call of a one-failure run
carries the endpoint literal. -/
theorem fixed_endpoint_witness :
    Event.connectCall "ws://painters.segerend.nl:80" ∈
      (run [AttemptOutcome.connectFail ⟨ErrKind.gaierror, "dns"⟩]).1 ∧
    "ws://painters.segerend.nl:80" = uri := by
  have hm : Event.connectCall "ws://painters.segerend.nl:80" ∈
      (run [AttemptOutcome.connectFail ⟨ErrKind.gaierror, "dns"⟩]).1 := by decide
  exact ⟨hm, (fixed_endpoint [AttemptOutcome.connectFail ⟨ErrKind.gaierror, "dns"⟩]
    "ws://painters.segerend.nl:80" hm).1⟩

/-- C7: the client routine has no normal-return state: no run produces
`returned`; an all-recoverable script leaves it still looping; and the
only alternatives ever are still-looping or a propagating fatal error. -/
theorem never_returns (script : List AttemptOutcome) :
    (run script).2 ≠ Result.returned ∧
    ((∀ x ∈ script, recoverable (attemptErr x) = true) →
      (run script).2 = Result.outOfScript) ∧
    ((run script).2 = Result.outOfScript ∨
      ∃ e, recoverable e = false ∧ (run script).2 = Result.fatal e) := by
  refine ⟨?_, run_recoverable_result script, run_result_cases script⟩
  rcases run_result_cases script with h | ⟨e, _, h⟩ <;> simp [h]

/-- Witness for non-termination: one recoverable failure leaves the loop
running. -/
theorem never_returns_witness :
    (∀ x ∈ [AttemptOutcome.connectFail ⟨ErrKind.gaierror, "dns"⟩],
        recoverable (attemptErr x) = true) ∧
    (run [AttemptOutcome.connectFail ⟨ErrKind.gaierror, "dns"⟩]).2 =
      Result.outOfScript :=
  ⟨by decide,
   (never_returns [AttemptOutcome.connectFail ⟨ErrKind.gaierror, "dns"⟩]).2.1 (by decide)⟩

/-- C8: in every prefix of every run at most one connection handle is
open (opens never lead closes by more than one, closes never lead opens),
and whenever the next event is a connect call or the backoff sleep, every
handle opened so far has already been closed: attempts never overlap. -/
theorem single_active_handle (script : List AttemptOutcome) (n : Nat) :
    closeCount (List.take n (run script).1) ≤ openCount (List.take n (run script).1) ∧
    openCount (List.take n (run script).1) ≤
      closeCount (List.take n (run script).1) + 1 ∧
    (∀ e, (run script).1[n]? = some e → (isConnectCall e || isSleepCall e) = true →
      openCount (List.take n (run script).1) = closeCount (List.take n (run script).1)) :=
  handleInv_run script n

/-- Witness for single-handle safety: in a run whose first attempt
succeeds, receives one message and dies, the handle count is balanced at
the second connect call. -/
theorem single_active_handle_witness :
    openCount (List.take 10
      (run [AttemptOutcome.recvFail ["m"] ⟨ErrKind.connectionClosedOK, "c"⟩,
            AttemptOutcome.connectFail ⟨ErrKind.connectionRefused, "r"⟩]).1) =
    closeCount (List.take 10
      (run [AttemptOutcome.recvFail ["m"] ⟨ErrKind.connectionClosedOK, "c"⟩,
            AttemptOutcome.connectFail ⟨ErrKind.connectionRefused, "r"⟩]).1) :=
  (single_active_handle
      [AttemptOutcome.recvFail ["m"] ⟨ErrKind.connectionClosedOK, "c"⟩,
       AttemptOutcome.connectFail ⟨ErrKind.connectionRefused, "r"⟩] 10).2.2
    (Event.connectCall uri) (by decide) (by decide)

/-- C9: the process never exits with code 0 on its own (0 would require
external interruption, which ends the process from outside the program),
and a non-recoverable error escaping the retry loop always exits
non-zero. -/
theorem exit_code_policy (script : List AttemptOutcome) :
    processExitCode (run script).2 ≠ some 0 ∧
    (∀ pre a post, script = pre ++ a :: post →
      (∀ x ∈ pre, recoverable (attemptErr x) = true) →
      recoverable (attemptErr a) = false →
      processExitCode (run script).2 = some 1) := by
  constructor
  · rcases run_result_cases script with h | ⟨e, _, h⟩ <;> simp [h, processExitCode]
  · intro pre a post hs hpre ha
    subst hs
    have hsingle : run (a :: post) =
        (attemptEvents a, Result.fatal (attemptErr a)) := by
      simp [run, ha]
    have happ := run_append_recoverable pre (a :: post) hpre
    rw [hsingle] at happ
    rw [happ]
    rfl

/-- Witness for the exit-code policy: a fatal error on the first attempt
exits with code 1. -/
theorem exit_code_policy_witness :
    processExitCode
      (run [AttemptOutcome.connectFail ⟨ErrKind.otherError, "boom"⟩]).2 = some 1 :=
  (exit_code_policy [AttemptOutcome.connectFail ⟨ErrKind.otherError, "boom"⟩]).2
    [] (AttemptOutcome.connectFail ⟨ErrKind.otherError, "boom"⟩) [] rfl
    (by decide) (by decide)

/-- C10: a clean, protocol-normal close is caught by the same
connection-closed class as an abnormal one and handled identically: the
whole run is the same as with an abnormal close carrying the same detail,
it is recoverable, it produces the "Connection failed: <detail>.
Retrying..." line and the fixed sleep, and no distinct non-failure event
exists for it. -/
theorem clean_close_retried (msgs : List String) (d : String)
    (rest : List AttemptOutcome) :
    run (AttemptOutcome.recvFail msgs ⟨ErrKind.connectionClosedOK, d⟩ :: rest) =
      run (AttemptOutcome.recvFail msgs ⟨ErrKind.connectionClosedError, d⟩ :: rest) ∧
    recoverable ⟨ErrKind.connectionClosedOK, d⟩ = true ∧
    (run (AttemptOutcome.recvFail msgs ⟨ErrKind.connectionClosedOK, d⟩ :: rest)).1 =
      attemptEvents (AttemptOutcome.recvFail msgs ⟨ErrKind.connectionClosedOK, d⟩) ++
        Event.print (OutLine.connFailed d) ::
        Event.sleepCall retryDelay :: (run rest).1 ∧
    renderLine (OutLine.connFailed d) = failLabel ++ d ++ retryTail :=
  ⟨rfl, rfl, rfl, rfl⟩

end WSClient
